import Mathlib

/-!
Verification of the `QGVLayerTilesOnline` tile fetch-and-cache coordinator.

The development gives a shallow embedding of the coordinator found in the
repository source: the persistent tile cache (an SQLite table with a uniqueness
constraint on zoom/x/y/provider, accessed through `findCachedTile` and
`cacheTile` with insert-or-replace semantics), the in-flight request table
(`mRequest`, a map from tile position to network reply handle), and the
operations `request`, `cancel`, `onReplyFinished` and `removeReply`.  Network
replies are modelled explicitly as records carrying the tile position and URL
captured by the completion lambda, together with a live/done status; observable
actions (issuing a GET, delivering a tile via `onTile`, aborting a reply,
removing an in-flight entry, writing to the cache, logging an error) are
recorded in an event trace.  A step relation over coordinator states models the
single-threaded event loop, and the theorems below settle the specification
claims against this embedding.
-/

namespace QGVTilesOnline

/-- Raw image bytes, modelling `QByteArray` contents. -/
abbrev Bytes := List Nat

/-- Tile position `QGV::GeoTilePos`: a zoom level and integer x/y grid position. -/
structure TilePos where
  zoom : Int
  x : Int
  y : Int
deriving DecidableEq

/-- Modelled from the spec: `GeoTilePos::toGeoRect` (the geographic bounding
rectangle of a tile) is implemented outside this fragment; the spec only
requires that the delivered tile's geometry equal the coordinate's geographic
rectangle, so the rectangle is represented opaquely by the tile position that
determines it. -/
structure GeoRect where
  sourceTile : TilePos
deriving DecidableEq

/-- Modelled from the spec: the coordinate-determined geographic rectangle. -/
def TilePos.toGeoRect (p : TilePos) : GeoRect :=
  ⟨p⟩

/-- The decoded tile object (`QGVImage`): geometry set from the tile position,
the image loaded from raw bytes, and the `drawDebug` string property. -/
structure Tile where
  geometry : GeoRect
  image : Bytes
  drawDebug : String
deriving DecidableEq

/-- The `drawDebug` property string `"%1\ntile(%2,%3,%4)"` with the URL-derived
header and the zoom/x/y of the tile position. -/
def drawDebugString (head : String) (p : TilePos) : String :=
  head ++ "\ntile(" ++ toString p.zoom ++ "," ++ toString p.x ++ ","
    ++ toString p.y ++ ")"

/-- Splitting a character list on the separator character of a URL, keeping
empty parts, as `QString::split` with a single-character separator does. -/
def splitCharList (cs : List Char) : List (List Char) :=
  match cs with
  | [] => [[]]
  | c :: rest =>
    if c = '/' then [] :: splitCharList rest
    else
      match splitCharList rest with
      | [] => [[c]]
      | g :: gs => (c :: g) :: gs

/-- The list of tokens of a URL string split on the slash separator,
modelling `url.split('/')`. -/
def splitSlash (s : String) : List String :=
  (splitCharList s.data).map List.asString

/-- The provider component bound into both SQL queries: `url.split('/')[2]`,
the authority token following the scheme. -/
def providerOf (url : String) : String :=
  (splitSlash url).getD 2 ""

/-- One row of the `Tiles` table: autoincrement row id, the key columns
zoom/x/y/provider and the stored blob. -/
structure CacheRow where
  rowId : Nat
  zoom : Int
  x : Int
  y : Int
  provider : String
  data : Bytes
deriving DecidableEq

/-- The WHERE clause shared by lookup and store: the row's key columns equal
the bound zoom/x/y/provider values. -/
def rowMatches (r : CacheRow) (p : TilePos) (provider : String) : Bool :=
  r.zoom == p.zoom && r.x == p.x && r.y == p.y && r.provider == provider

/-- Network completion status of a `QNetworkReply`. -/
inductive NetError where
  | noError
  | operationCanceled
  | otherError (code : Nat)
deriving DecidableEq

/-- Whether a reply handle is still in flight (`live`) or has fired its
completion, been aborted, or been released (`done`). -/
inductive ReplyStatus where
  | live
  | done
deriving DecidableEq

/-- One issued network reply: its handle identity, the tile position and URL
captured by the `finished` lambda, and its status. -/
structure ReplyRec where
  id : Nat
  pos : TilePos
  url : String
  status : ReplyStatus
deriving DecidableEq

/-- Observable actions of the coordinator, in execution order. -/
inductive Event where
  | netGet (replyId : Nat) (url : String)
  | onTile (pos : TilePos) (tile : Tile)
  | removeEntry (pos : TilePos)
  | abortReply (replyId : Nat)
  | cacheWrite (zoom x y : Int) (provider : String) (data : Bytes)
  | logCritical
deriving DecidableEq

/-- The coordinator state: database health, the in-flight table `mRequest`,
all replies ever issued, the cache table contents, fresh-id counters and the
event trace. -/
structure LayerState where
  dbOk : Bool
  mRequest : List (TilePos × Nat)
  replies : List ReplyRec
  cache : List CacheRow
  nextId : Nat
  nextRowId : Nat
  events : List Event
deriving DecidableEq

/-- Lookup in the in-flight table, modelling `mRequest.value(tilePos, nullptr)`. -/
def mapLookup (m : List (TilePos × Nat)) (k : TilePos) : Option Nat :=
  (m.find? (fun e => e.1 == k)).map (fun e => e.2)

/-- Insertion or overwrite in the in-flight table, modelling
`mRequest[tilePos] = reply`. -/
def mapInsert (m : List (TilePos × Nat)) (k : TilePos) (v : Nat) : List (TilePos × Nat) :=
  m.filter (fun e => !(e.1 == k)) ++ [(k, v)]

/-- Removal from the in-flight table, modelling `mRequest.remove(tilePos)`. -/
def mapRemove (m : List (TilePos × Nat)) (k : TilePos) : List (TilePos × Nat) :=
  m.filter (fun e => !(e.1 == k))

/-- Marking a reply handle as no longer live (aborted / closed / released). -/
def markDone (rs : List ReplyRec) (id : Nat) : List ReplyRec :=
  rs.map (fun r => if r.id == id then { r with status := ReplyStatus.done } else r)

/-- `QGVLayerTilesOnline::findCachedTile`: SELECT the blob for the exact
zoom/x/y/provider key; an absent row (or a failed query on an unhealthy
database) yields the empty byte array. -/
def findCachedTile (s : LayerState) (tilePos : TilePos) (url : String) : Bytes :=
  if s.dbOk then
    match s.cache.find? (fun r => rowMatches r tilePos (providerOf url)) with
    | some r => r.data
    | none => []
  else []

/-- `QGVLayerTilesOnline::cacheTile`: INSERT OR REPLACE the blob under the
zoom/x/y/provider key; with the uniqueness constraint this deletes any row
sharing the key and inserts a fresh row.  A failed query is logged. -/
def cacheTile (s : LayerState) (image : Bytes) (tilePos : TilePos) (url : String) :
    LayerState :=
  if s.dbOk then
    { s with
      cache := s.cache.filter (fun r => !(rowMatches r tilePos (providerOf url)))
        ++ [⟨s.nextRowId, tilePos.zoom, tilePos.x, tilePos.y, providerOf url, image⟩],
      nextRowId := s.nextRowId + 1,
      events := s.events
        ++ [Event.cacheWrite tilePos.zoom tilePos.x tilePos.y (providerOf url) image] }
  else
    { s with events := s.events ++ [Event.logCritical] }

/-- `QGVLayerTilesOnline::removeReply`: if the in-flight table holds a reply
for the position, remove the entry, then abort, close and release the reply;
otherwise do nothing. -/
def removeReply (s : LayerState) (tilePos : TilePos) : LayerState :=
  match mapLookup s.mRequest tilePos with
  | none => s
  | some replyId =>
    { s with
      mRequest := mapRemove s.mRequest tilePos,
      replies := markDone s.replies replyId,
      events := s.events ++ [Event.removeEntry tilePos, Event.abortReply replyId] }

/-- `QGVLayerTilesOnline::cancel`: delegates to `removeReply`. -/
def cancel (s : LayerState) (tilePos : TilePos) : LayerState :=
  removeReply s tilePos

/-- `QGVLayerTilesOnline::request`: resolve the URL, look the tile up in the
cache; on a non-empty result build the tile and deliver it via `onTile`;
otherwise issue a network GET, store the fresh reply handle in the in-flight
table (overwriting any previous handle for the position) and connect its
completion to `onReplyFinished`. -/
def request (resolver : TilePos → String) (s : LayerState) (tilePos : TilePos) :
    LayerState :=
  let url := resolver tilePos
  let cachedTile := findCachedTile s tilePos url
  if !cachedTile.isEmpty then
    let tile : Tile :=
      { geometry := tilePos.toGeoRect,
        image := cachedTile,
        drawDebug := drawDebugString (url ++ " Cached Tile") tilePos }
    { s with events := s.events ++ [Event.onTile tilePos tile] }
  else
    { s with
      replies := s.replies ++ [⟨s.nextId, tilePos, url, ReplyStatus.live⟩],
      mRequest := mapInsert s.mRequest tilePos s.nextId,
      nextId := s.nextId + 1,
      events := s.events ++ [Event.netGet s.nextId url] }

/-- `QGVLayerTilesOnline::onReplyFinished`: on a non-`noError` completion, log
unless the error is cancellation, then `removeReply` and return; on success,
read the payload, build the tile, `removeReply`, deliver via `onTile`, then
`cacheTile`. -/
def onReplyFinished (s : LayerState) (replyUrl : String) (err : NetError)
    (body : Bytes) (tilePos : TilePos) : LayerState :=
  if err ≠ NetError.noError then
    let s1 :=
      if err ≠ NetError.operationCanceled then
        { s with events := s.events ++ [Event.logCritical] }
      else s
    removeReply s1 tilePos
  else
    let rawImage := body
    let tile : Tile :=
      { geometry := tilePos.toGeoRect,
        image := rawImage,
        drawDebug := drawDebugString replyUrl tilePos }
    let s1 := removeReply s tilePos
    let s2 := { s1 with events := s1.events ++ [Event.onTile tilePos tile] }
    cacheTile s2 rawImage tilePos replyUrl

/-- Marking the firing reply as consumed: once its `finished` signal has been
delivered, the handle never fires again. -/
def consumeReply (s : LayerState) (id : Nat) : LayerState :=
  { s with replies := markDone s.replies id }

/-- The state after construction: empty in-flight table, no replies issued;
the database may or may not have opened (`dbOk`). -/
def initState (dbOk : Bool) : LayerState :=
  { dbOk := dbOk, mRequest := [], replies := [], cache := [],
    nextId := 0, nextRowId := 0, events := [] }

/-- One step of the single-threaded event loop: a consumer `request`, a
consumer `cancel`, or the `finished` signal of a live reply delivering an
arbitrary network outcome to `onReplyFinished` through the connected lambda
(which captured the reply's position and URL). -/
inductive Step (resolver : TilePos → String) : LayerState → LayerState → Prop where
  | request (s : LayerState) (pos : TilePos) :
      Step resolver s (request resolver s pos)
  | cancel (s : LayerState) (pos : TilePos) :
      Step resolver s (cancel s pos)
  | finish (s : LayerState) (r : ReplyRec) (err : NetError) (body : Bytes) :
      r ∈ s.replies → r.status = ReplyStatus.live →
      Step resolver s (onReplyFinished (consumeReply s r.id) r.url err body r.pos)

/-- Reachability of coordinator states under the event loop. -/
def Reachable (resolver : TilePos → String) : LayerState → LayerState → Prop :=
  Relation.ReflTransGen (Step resolver)

/-- A tile position currently has a fetch in flight: some issued reply for it
is still live. -/
def Fetching (s : LayerState) (pos : TilePos) : Prop :=
  ∃ r ∈ s.replies, r.pos = pos ∧ r.status = ReplyStatus.live

/-- The tiles delivered to the consumer for a given position, in order of
delivery, read off the event trace. -/
def deliveredTiles (evs : List Event) (pos : TilePos) : List Tile :=
  evs.filterMap (fun e =>
    match e with
    | Event.onTile p t => if p = pos then some t else none
    | _ => none)

/-- The inductive invariant of the event loop: the in-flight table has
pairwise-distinct keys, issued replies have pairwise-distinct identities
bounded by the fresh-id counter, and every table entry points at a live reply
issued for exactly that coordinate. -/
def Inv (s : LayerState) : Prop :=
  (s.mRequest.map Prod.fst).Nodup ∧
  (s.replies.map ReplyRec.id).Nodup ∧
  (∀ r ∈ s.replies, r.id < s.nextId) ∧
  (∀ e ∈ s.mRequest, ∃ r ∈ s.replies,
    r.id = e.2 ∧ r.pos = e.1 ∧ r.status = ReplyStatus.live)

/-! ### Helper lemmas about the list-based map and cache operations -/

theorem find?_filter_not {α : Type} (p : α → Bool) (l : List α) :
    (l.filter (fun a => !(p a))).find? p = none := by
  rw [List.find?_eq_none]
  intro x hx
  have h2 := (List.mem_filter.mp hx).2
  simp only [Bool.not_eq_true'] at h2
  simp [h2]

theorem filter_filter_not {α : Type} (p : α → Bool) (l : List α) :
    (l.filter (fun a => !(p a))).filter p = [] := by
  induction l with
  | nil => rfl
  | cons a l ih =>
    by_cases h : p a
    · simp [List.filter_cons, h, ih]
    · simp [List.filter_cons, h, ih]

theorem mapLookup_insert (m : List (TilePos × Nat)) (k : TilePos) (v : Nat) :
    mapLookup (mapInsert m k v) k = some v := by
  unfold mapLookup mapInsert
  rw [List.find?_append, find?_filter_not (fun e => e.1 == k) m]
  simp [List.find?]

theorem mapLookup_remove_self (m : List (TilePos × Nat)) (k : TilePos) :
    mapLookup (mapRemove m k) k = none := by
  unfold mapLookup mapRemove
  rw [find?_filter_not (fun e => e.1 == k) m]
  rfl

theorem find?_filter_other (m : List (TilePos × Nat)) (k q : TilePos) (h : q ≠ k) :
    (m.filter (fun e => !(e.1 == k))).find? (fun e => e.1 == q)
      = m.find? (fun e => e.1 == q) := by
  induction m with
  | nil => rfl
  | cons e m ih =>
    by_cases hq : e.1 = q
    · have hk : e.1 ≠ k := by rw [hq]; exact h
      simp [List.filter_cons, List.find?_cons, hq, hk, h]
    · by_cases hk : e.1 = k
      · simp [List.filter_cons, List.find?_cons, hq, hk, h, Ne.symm h, ih]
      · simp [List.filter_cons, List.find?_cons, hq, hk, h, ih]

theorem mapLookup_remove_other (m : List (TilePos × Nat)) (k q : TilePos)
    (h : q ≠ k) : mapLookup (mapRemove m k) q = mapLookup m q := by
  unfold mapLookup mapRemove
  rw [find?_filter_other m k q h]

theorem mapLookup_mem (m : List (TilePos × Nat)) (k : TilePos) (v : Nat)
    (h : mapLookup m k = some v) : (k, v) ∈ m := by
  unfold mapLookup at h
  cases hf : m.find? (fun e => e.1 == k) with
  | none => rw [hf] at h; cases h
  | some e =>
    rw [hf] at h
    have he := List.find?_some hf
    have hm := List.mem_of_find?_eq_some hf
    have h1 : e.1 = k := by simpa using he
    have h2 : e.2 = v := by simpa using h
    have : e = (k, v) := by
      obtain ⟨a, b⟩ := e
      simp only at h1 h2
      rw [h1, h2]
    rwa [this] at hm

theorem mapLookup_none_iff (m : List (TilePos × Nat)) (k : TilePos) :
    mapLookup m k = none ↔ ∀ e ∈ m, e.1 ≠ k := by
  unfold mapLookup
  rw [Option.map_eq_none']
  rw [List.find?_eq_none]
  constructor
  · intro h e he
    have := h e he
    simpa using this
  · intro h e he
    simp [h e he]

theorem findCachedTile_eq_of_unique (s : LayerState) (pos : TilePos) (url : String)
    (r : CacheRow) (hdb : s.dbOk = true) (hmem : r ∈ s.cache)
    (hmatch : rowMatches r pos (providerOf url) = true)
    (huniq : ∀ r2 ∈ s.cache, rowMatches r2 pos (providerOf url) = true → r2 = r) :
    findCachedTile s pos url = r.data := by
  unfold findCachedTile
  rw [hdb]
  simp only [if_true]
  cases hf : s.cache.find? (fun r2 => rowMatches r2 pos (providerOf url)) with
  | none =>
    exact absurd hmatch (List.find?_eq_none.mp hf r hmem)
  | some r0 =>
    have h0 := List.find?_some hf
    have hm0 := List.mem_of_find?_eq_some hf
    rw [huniq r0 hm0 h0]

theorem removeReply_of_lookup_none (s : LayerState) (pos : TilePos)
    (h : mapLookup s.mRequest pos = none) : removeReply s pos = s := by
  unfold removeReply
  rw [h]

theorem removeReply_of_lookup_some (s : LayerState) (pos : TilePos) (i : Nat)
    (h : mapLookup s.mRequest pos = some i) :
    removeReply s pos =
      { s with
        mRequest := mapRemove s.mRequest pos,
        replies := markDone s.replies i,
        events := s.events ++ [Event.removeEntry pos, Event.abortReply i] } := by
  unfold removeReply
  rw [h]

theorem cacheTile_events (s : LayerState) (image : Bytes) (pos : TilePos)
    (url : String) :
    (cacheTile s image pos url).events = s.events
      ++ (if s.dbOk then
            [Event.cacheWrite pos.zoom pos.x pos.y (providerOf url) image]
          else [Event.logCritical]) := by
  unfold cacheTile
  by_cases h : s.dbOk <;> simp [h]

theorem cacheTile_cache_of_dbFail (s : LayerState) (image : Bytes) (pos : TilePos)
    (url : String) (h : s.dbOk = false) :
    (cacheTile s image pos url).cache = s.cache := by
  unfold cacheTile
  simp [h]

theorem onReplyFinished_error (s : LayerState) (replyUrl : String) (err : NetError)
    (body : Bytes) (pos : TilePos) (herr : err ≠ NetError.noError) :
    onReplyFinished s replyUrl err body pos =
      removeReply
        (if err ≠ NetError.operationCanceled then
          { s with events := s.events ++ [Event.logCritical] }
        else s) pos := by
  unfold onReplyFinished
  rw [if_pos herr]

theorem onReplyFinished_noError (s : LayerState) (replyUrl : String) (body : Bytes)
    (pos : TilePos) (i : Nat) (h : mapLookup s.mRequest pos = some i) :
    onReplyFinished s replyUrl NetError.noError body pos =
      cacheTile
        { s with
          mRequest := mapRemove s.mRequest pos,
          replies := markDone s.replies i,
          events := s.events ++ [Event.removeEntry pos, Event.abortReply i,
            Event.onTile pos ⟨pos.toGeoRect, body, drawDebugString replyUrl pos⟩] }
        body pos replyUrl := by
  unfold onReplyFinished
  simp only [ne_eq, not_true_eq_false, if_false, reduceIte]
  rw [removeReply_of_lookup_some s pos i h]
  simp [List.append_assoc]

theorem deliveredTiles_append (l1 l2 : List Event) (pos : TilePos) :
    deliveredTiles (l1 ++ l2) pos = deliveredTiles l1 pos ++ deliveredTiles l2 pos :=
  List.filterMap_append l1 l2 _

/-! ### Claim theorems -/

/-- C4: for a tile position whose cache key has a stored entry with non-empty
bytes, `request` delivers the tile via `onTile` and returns without issuing a
network fetch and without touching the in-flight table. -/
theorem c4_cache_hit_no_fetch (resolver : TilePos → String) (s : LayerState)
    (pos : TilePos) (r : CacheRow) (hdb : s.dbOk = true) (hmem : r ∈ s.cache)
    (hmatch : rowMatches r pos (providerOf (resolver pos)) = true)
    (hnonempty : r.data ≠ [])
    (huniq : ∀ r2 ∈ s.cache,
      rowMatches r2 pos (providerOf (resolver pos)) = true → r2 = r) :
    findCachedTile s pos (resolver pos) = r.data ∧
    (request resolver s pos).mRequest = s.mRequest ∧
    (request resolver s pos).replies = s.replies ∧
    (request resolver s pos).nextId = s.nextId ∧
    (request resolver s pos).cache = s.cache ∧
    (request resolver s pos).events = s.events ++
      [Event.onTile pos ⟨pos.toGeoRect, r.data,
        drawDebugString (resolver pos ++ " Cached Tile") pos⟩] := by
  have hfind : findCachedTile s pos (resolver pos) = r.data :=
    findCachedTile_eq_of_unique s pos (resolver pos) r hdb hmem hmatch huniq
  have hne : r.data.isEmpty = false := by
    cases hd : r.data with
    | nil => exact absurd hd hnonempty
    | cons a l => rfl
  refine ⟨hfind, ?_, ?_, ?_, ?_, ?_⟩ <;>
    simp [request, hfind, hne]

/-- C8: both the cache lookup and the cache store derive the provider component
of the key as the token at index 2 of the URL split on the slash separator, so
for a fixed URL the store key and the lookup key agree: bytes stored under a
URL are found by a lookup with the same position and URL. -/
theorem c8_provider_key_agreement (s : LayerState) (image : Bytes) (pos : TilePos)
    (url : String) (hdb : s.dbOk = true) (hlen : 2 < (splitSlash url).length) :
    providerOf url = (splitSlash url).get ⟨2, hlen⟩ ∧
    findCachedTile (cacheTile s image pos url) pos url = image := by
  constructor
  · unfold providerOf
    rw [List.getD_eq_getElem?_getD, List.getElem?_eq_getElem hlen]
    simp
  · unfold cacheTile
    rw [hdb]
    simp only [if_true]
    unfold findCachedTile
    simp only [hdb, if_true]
    rw [List.find?_append,
      find?_filter_not (fun r => rowMatches r pos (providerOf url)) s.cache]
    simp [List.find?, rowMatches]

/-- C9: storing bytes twice for the same cache key leaves exactly one row for
that key, holding the second byte sequence (insert-or-replace semantics with
the uniqueness constraint on zoom/x/y/provider). -/
theorem c9_cache_store_idempotent (s : LayerState) (b1 b2 : Bytes) (pos : TilePos)
    (url : String) (hdb : s.dbOk = true) :
    ((cacheTile (cacheTile s b1 pos url) b2 pos url).cache.filter
        (fun r => rowMatches r pos (providerOf url))).map CacheRow.data = [b2] := by
  unfold cacheTile
  rw [hdb]
  simp only [if_true, hdb]
  rw [List.filter_append,
    filter_filter_not (fun r => rowMatches r pos (providerOf url))]
  simp [List.filter_cons, rowMatches]

/-- C10: a cache entry whose stored data is the empty byte sequence behaves
like an absent entry: `findCachedTile` returns empty bytes and `request`
still issues a network fetch and registers an in-flight entry. -/
theorem c10_empty_entry_is_miss (resolver : TilePos → String) (s : LayerState)
    (pos : TilePos) (r : CacheRow) (hdb : s.dbOk = true) (hmem : r ∈ s.cache)
    (hmatch : rowMatches r pos (providerOf (resolver pos)) = true)
    (hempty : r.data = [])
    (huniq : ∀ r2 ∈ s.cache,
      rowMatches r2 pos (providerOf (resolver pos)) = true → r2 = r) :
    findCachedTile s pos (resolver pos) = [] ∧
    (request resolver s pos).events = s.events
      ++ [Event.netGet s.nextId (resolver pos)] ∧
    mapLookup (request resolver s pos).mRequest pos = some s.nextId := by
  have hfind : findCachedTile s pos (resolver pos) = [] := by
    rw [findCachedTile_eq_of_unique s pos (resolver pos) r hdb hmem hmatch huniq,
      hempty]
  refine ⟨hfind, ?_, ?_⟩
  · simp [request, hfind]
  · simp [request, hfind, mapLookup_insert]

/-- C1: a second `request` for a coordinate that already has an in-flight
entry (and still misses the cache) issues a fresh network request, overwrites
the prior handle in the table, and neither aborts nor touches the prior reply:
the coordinator performs no de-duplication. -/
theorem c1_no_dedup_on_second_request (resolver : TilePos → String)
    (s : LayerState) (pos : TilePos) (oldId : Nat)
    (hold : mapLookup s.mRequest pos = some oldId)
    (hmiss : findCachedTile s pos (resolver pos) = []) :
    (request resolver s pos).events = s.events
      ++ [Event.netGet s.nextId (resolver pos)] ∧
    (request resolver s pos).replies = s.replies
      ++ [⟨s.nextId, pos, resolver pos, ReplyStatus.live⟩] ∧
    mapLookup (request resolver s pos).mRequest pos = some s.nextId ∧
    (∀ v : Nat, (pos, v) ∈ (request resolver s pos).mRequest → v = s.nextId) := by
  refine ⟨?_, ?_, ?_, ?_⟩
  · simp [request, hmiss]
  · simp [request, hmiss]
  · simp [request, hmiss, mapLookup_insert]
  · intro v hv
    simp only [request, hmiss] at hv
    simp only [List.isEmpty_nil, Bool.not_true, Bool.false_eq_true, if_false] at hv
    rcases List.mem_append.mp hv with h1 | h1
    · have h2 := (List.mem_filter.mp h1).2
      simp at h2
    · simpa using h1

/-- C5 counterexample: in a concrete successful fetch, removal of the
in-flight entry is the second recorded action, before the `onTile` delivery,
and the final action is the cache write — removal is not the final step of the
completion sequence as the claim states. -/
theorem c5_counterexample :
    ((onReplyFinished
        (consumeReply
          (request (fun _ => "http://tile.example.com/3/1/2.png")
            (initState true) ⟨3, 1, 2⟩) 0)
        "http://tile.example.com/3/1/2.png" NetError.noError [7]
        ⟨3, 1, 2⟩).events)[1]?
      = some (Event.removeEntry ⟨3, 1, 2⟩) ∧
    ((onReplyFinished
        (consumeReply
          (request (fun _ => "http://tile.example.com/3/1/2.png")
            (initState true) ⟨3, 1, 2⟩) 0)
        "http://tile.example.com/3/1/2.png" NetError.noError [7]
        ⟨3, 1, 2⟩).events).getLast?
      = some (Event.cacheWrite 3 1 2 "tile.example.com" [7]) := by
  constructor <;> decide

/-- C5 amended: on a successful completion with an in-flight entry present,
the coordinator removes the in-flight entry first (abort included), then
delivers the decoded tile via `onTile`, then writes the raw bytes through to
the cache store; delivery thus happens before the cache write, and a failing
cache write is logged after the delivery and leaves the cache (and the
already-delivered tile event) unaffected. -/
theorem c5_success_ordering (s : LayerState) (replyUrl : String) (body : Bytes)
    (pos : TilePos) (i : Nat) (h : mapLookup s.mRequest pos = some i) :
    (onReplyFinished s replyUrl NetError.noError body pos).events = s.events
      ++ [Event.removeEntry pos, Event.abortReply i,
          Event.onTile pos ⟨pos.toGeoRect, body, drawDebugString replyUrl pos⟩]
      ++ (if s.dbOk then
            [Event.cacheWrite pos.zoom pos.x pos.y (providerOf replyUrl) body]
          else [Event.logCritical]) ∧
    (s.dbOk = false →
      (onReplyFinished s replyUrl NetError.noError body pos).cache = s.cache) := by
  rw [onReplyFinished_noError s replyUrl body pos i h]
  constructor
  · rw [cacheTile_events]
  · intro hdb
    rw [cacheTile_cache_of_dbFail]
    exact hdb

/-- C6: a completion with a non-cancellation error logs the failure, removes
the in-flight entry and performs no delivery and no cache write; a completion
with a cancellation error removes the in-flight entry with no delivery, no
cache write and no log entry. -/
theorem c6_error_completion (s : LayerState) (replyUrl : String) (err : NetError)
    (body : Bytes) (pos : TilePos) (herr : err ≠ NetError.noError) :
    (onReplyFinished s replyUrl err body pos).cache = s.cache ∧
    mapLookup (onReplyFinished s replyUrl err body pos).mRequest pos = none ∧
    (onReplyFinished s replyUrl err body pos).events = s.events
      ++ (if err = NetError.operationCanceled then [] else [Event.logCritical])
      ++ (match mapLookup s.mRequest pos with
          | some i => [Event.removeEntry pos, Event.abortReply i]
          | none => []) := by
  rw [onReplyFinished_error s replyUrl err body pos herr]
  by_cases hc : err = NetError.operationCanceled
  · rw [if_neg (by simp [hc]), if_pos hc]
    cases hl : mapLookup s.mRequest pos with
    | none => rw [removeReply_of_lookup_none s pos hl]; simp [hl]
    | some i =>
      rw [removeReply_of_lookup_some s pos i hl]
      exact ⟨rfl, mapLookup_remove_self s.mRequest pos, by simp⟩
  · rw [if_pos (by simp [hc]), if_neg hc]
    have hm : mapLookup ({ s with events := s.events ++ [Event.logCritical] }
        : LayerState).mRequest pos = mapLookup s.mRequest pos := rfl
    cases hl : mapLookup s.mRequest pos with
    | none =>
      rw [removeReply_of_lookup_none _ pos (hm.trans hl)]
      simp [hl]
    | some i =>
      rw [removeReply_of_lookup_some _ pos i (hm.trans hl)]
      exact ⟨rfl, mapLookup_remove_self s.mRequest pos, by simp⟩

/-- C7: `cancel` with an in-flight entry removes exactly that coordinate's
entry and aborts the underlying reply, leaving the cache and every other
coordinate's entry unchanged; `cancel` with no in-flight entry is a complete
no-op. -/
theorem c7_cancel_abort_or_noop (s : LayerState) (pos : TilePos) :
    (mapLookup s.mRequest pos = none → cancel s pos = s) ∧
    (∀ i : Nat, mapLookup s.mRequest pos = some i →
      (cancel s pos).mRequest = mapRemove s.mRequest pos ∧
      mapLookup (cancel s pos).mRequest pos = none ∧
      (∀ q : TilePos, q ≠ pos →
        mapLookup (cancel s pos).mRequest q = mapLookup s.mRequest q) ∧
      (cancel s pos).replies = markDone s.replies i ∧
      (cancel s pos).cache = s.cache ∧
      (cancel s pos).events = s.events
        ++ [Event.removeEntry pos, Event.abortReply i]) := by
  constructor
  · intro h
    unfold cancel
    exact removeReply_of_lookup_none s pos h
  · intro i h
    unfold cancel
    rw [removeReply_of_lookup_some s pos i h]
    refine ⟨rfl, mapLookup_remove_self s.mRequest pos, ?_, rfl, rfl, rfl⟩
    intro q hq
    exact mapLookup_remove_other s.mRequest pos q hq

/-- C3: a single `request` that misses the cache, followed by a successful
completion of the issued fetch, delivers via `onTile` exactly one tile for
that coordinate, whose geometry is the coordinate's geographic rectangle; if
the fetch instead completes with any error, no tile is delivered for the
coordinate. -/
theorem c3_exactly_once_delivery (resolver : TilePos → String) (s : LayerState)
    (pos : TilePos) (body : Bytes) (err : NetError)
    (hmiss : findCachedTile s pos (resolver pos) = []) :
    deliveredTiles (onReplyFinished (consumeReply (request resolver s pos) s.nextId)
        (resolver pos) NetError.noError body pos).events pos
      = deliveredTiles s.events pos
        ++ [⟨pos.toGeoRect, body, drawDebugString (resolver pos) pos⟩] ∧
    (err ≠ NetError.noError →
      deliveredTiles (onReplyFinished (consumeReply (request resolver s pos) s.nextId)
          (resolver pos) err body pos).events pos
        = deliveredTiles s.events pos) := by
  have hreq : request resolver s pos =
      { s with
        replies := s.replies ++ [⟨s.nextId, pos, resolver pos, ReplyStatus.live⟩],
        mRequest := mapInsert s.mRequest pos s.nextId,
        nextId := s.nextId + 1,
        events := s.events ++ [Event.netGet s.nextId (resolver pos)] } := by
    simp [request, hmiss]
  have hcons : consumeReply (request resolver s pos) s.nextId =
      { s with
        replies := markDone
          (s.replies ++ [⟨s.nextId, pos, resolver pos, ReplyStatus.live⟩]) s.nextId,
        mRequest := mapInsert s.mRequest pos s.nextId,
        nextId := s.nextId + 1,
        events := s.events ++ [Event.netGet s.nextId (resolver pos)] } := by
    rw [hreq]
    rfl
  have hlook : mapLookup (consumeReply (request resolver s pos) s.nextId).mRequest pos
      = some s.nextId := by
    rw [hcons]
    exact mapLookup_insert s.mRequest pos s.nextId
  constructor
  · rw [onReplyFinished_noError _ _ body pos s.nextId hlook, cacheTile_events]
    rw [hcons]
    simp only []
    by_cases hdb : s.dbOk
    · simp [hdb, deliveredTiles_append, deliveredTiles]
    · simp [hdb, deliveredTiles_append, deliveredTiles]
  · intro herr
    rw [onReplyFinished_error _ _ err body pos herr]
    by_cases hc : err ≠ NetError.operationCanceled
    · rw [if_pos hc]
      have hlook2 : mapLookup
          ({ consumeReply (request resolver s pos) s.nextId with
            events := (consumeReply (request resolver s pos) s.nextId).events
              ++ [Event.logCritical] } : LayerState).mRequest pos
          = some s.nextId := hlook
      rw [removeReply_of_lookup_some _ pos s.nextId hlook2]
      rw [hcons]
      simp [deliveredTiles_append, deliveredTiles]
    · rw [if_neg hc]
      rw [removeReply_of_lookup_some _ pos s.nextId hlook]
      rw [hcons]
      simp [deliveredTiles_append, deliveredTiles]

/-! ### The in-flight table invariant (C2) -/

theorem markDone_map_id (rs : List ReplyRec) (i : Nat) :
    (markDone rs i).map ReplyRec.id = rs.map ReplyRec.id := by
  unfold markDone
  rw [List.map_map]
  apply List.map_congr_left
  intro r _
  by_cases h : r.id = i <;> simp [Function.comp, h]

theorem mem_markDone_of_ne (rs : List ReplyRec) (i : Nat) (r : ReplyRec)
    (hr : r ∈ rs) (hne : r.id ≠ i) : r ∈ markDone rs i := by
  unfold markDone
  have h2 := List.mem_map_of_mem
    (fun r => if r.id == i then { r with status := ReplyStatus.done } else r) hr
  simpa [hne] using h2

theorem markDone_bound (rs : List ReplyRec) (i n : Nat)
    (h : ∀ r ∈ rs, r.id < n) : ∀ r ∈ markDone rs i, r.id < n := by
  intro r hr
  unfold markDone at hr
  obtain ⟨r0, hr0, heq⟩ := List.mem_map.mp hr
  have hid : r.id = r0.id := by
    by_cases hi : r0.id = i <;> simp [← heq, hi]
  rw [hid]
  exact h r0 hr0

theorem keys_nodup_filter (m : List (TilePos × Nat)) (p : TilePos × Nat → Bool)
    (h : (m.map Prod.fst).Nodup) : ((m.filter p).map Prod.fst).Nodup :=
  h.sublist ((List.filter_sublist m).map Prod.fst)

theorem mem_mapRemove (m : List (TilePos × Nat)) (k : TilePos) (e : TilePos × Nat)
    (h : e ∈ mapRemove m k) : e ∈ m ∧ e.1 ≠ k := by
  have h2 := List.mem_filter.mp h
  refine ⟨h2.1, ?_⟩
  simpa using h2.2

theorem request_hit (resolver : TilePos → String) (s : LayerState) (pos : TilePos)
    (h : (findCachedTile s pos (resolver pos)).isEmpty = false) :
    request resolver s pos = { s with events := s.events
      ++ [Event.onTile pos ⟨pos.toGeoRect, findCachedTile s pos (resolver pos),
          drawDebugString (resolver pos ++ " Cached Tile") pos⟩] } := by
  unfold request
  simp [h]

theorem request_miss (resolver : TilePos → String) (s : LayerState) (pos : TilePos)
    (h : (findCachedTile s pos (resolver pos)).isEmpty = true) :
    request resolver s pos = { s with
      replies := s.replies ++ [⟨s.nextId, pos, resolver pos, ReplyStatus.live⟩],
      mRequest := mapInsert s.mRequest pos s.nextId,
      nextId := s.nextId + 1,
      events := s.events ++ [Event.netGet s.nextId (resolver pos)] } := by
  unfold request
  simp [h]

theorem inv_request (resolver : TilePos → String) (s : LayerState) (pos : TilePos)
    (hInv : Inv s) : Inv (request resolver s pos) := by
  obtain ⟨hkeys, hids, hbound, hB⟩ := hInv
  cases hm : (findCachedTile s pos (resolver pos)).isEmpty with
  | false =>
    rw [request_hit resolver s pos hm]
    exact ⟨hkeys, hids, hbound, hB⟩
  | true =>
    rw [request_miss resolver s pos hm]
    refine ⟨?_, ?_, ?_, ?_⟩
    · show ((mapInsert s.mRequest pos s.nextId).map Prod.fst).Nodup
      unfold mapInsert
      rw [List.map_append, List.nodup_append]
      refine ⟨keys_nodup_filter s.mRequest _ hkeys, by simp, ?_⟩
      intro a ha hb
      obtain ⟨e, he, heq⟩ := List.mem_map.mp ha
      have h2 : e.1 ≠ pos := by simpa using (List.mem_filter.mp he).2
      have h3 : a = pos := by simpa using hb
      exact h2 (heq.trans h3)
    · show (((s.replies
        ++ [(⟨s.nextId, pos, resolver pos, ReplyStatus.live⟩ : ReplyRec)]).map
          ReplyRec.id)).Nodup
      rw [List.map_append, List.nodup_append]
      refine ⟨hids, by simp, ?_⟩
      intro a ha hb
      obtain ⟨r, hr, heq⟩ := List.mem_map.mp ha
      have h2 : a = s.nextId := by simpa using hb
      have h3 := hbound r hr
      rw [heq, h2] at h3
      exact absurd h3 (lt_irrefl _)
    · intro r hr
      show r.id < s.nextId + 1
      rcases List.mem_append.mp hr with h1 | h1
      · exact Nat.lt_succ_of_lt (hbound r h1)
      · have : r = ⟨s.nextId, pos, resolver pos, ReplyStatus.live⟩ := by simpa using h1
        rw [this]
        exact Nat.lt_succ_self _
    · intro e he
      rcases List.mem_append.mp he with h1 | h1
      · obtain ⟨r, hr, hprop⟩ := hB e (List.mem_filter.mp h1).1
        exact ⟨r, List.mem_append_left _ hr, hprop⟩
      · have h2 : e = (pos, s.nextId) := by simpa using h1
        refine ⟨⟨s.nextId, pos, resolver pos, ReplyStatus.live⟩,
          List.mem_append_right _ (by simp), ?_⟩
        rw [h2]
        exact ⟨rfl, rfl, rfl⟩

theorem inv_removeReply (s : LayerState) (pos : TilePos) (hInv : Inv s) :
    Inv (removeReply s pos) := by
  obtain ⟨hkeys, hids, hbound, hB⟩ := hInv
  cases hl : mapLookup s.mRequest pos with
  | none =>
    rw [removeReply_of_lookup_none s pos hl]
    exact ⟨hkeys, hids, hbound, hB⟩
  | some i =>
    rw [removeReply_of_lookup_some s pos i hl]
    have hmemi := mapLookup_mem s.mRequest pos i hl
    obtain ⟨ri, hri, hriid, hripos, hrilive⟩ := hB (pos, i) hmemi
    refine ⟨?_, ?_, ?_, ?_⟩
    · exact keys_nodup_filter s.mRequest _ hkeys
    · show ((markDone s.replies i).map ReplyRec.id).Nodup
      rw [markDone_map_id]
      exact hids
    · intro r hr
      exact markDone_bound s.replies i s.nextId hbound r hr
    · intro e he
      obtain ⟨hem, hene⟩ := mem_mapRemove s.mRequest pos e he
      obtain ⟨r, hr, hrid, hrpos, hrlive⟩ := hB e hem
      have hne : r.id ≠ i := by
        intro hri2
        have hr_eq : r = ri :=
          List.inj_on_of_nodup_map hids hr hri (by rw [hri2, hriid])
        apply hene
        rw [← hrpos, hr_eq, hripos]
      exact ⟨r, mem_markDone_of_ne s.replies i r hr hne, hrid, hrpos, hrlive⟩

theorem inv_of_fields (u v : LayerState) (h1 : v.mRequest = u.mRequest)
    (h2 : v.replies = u.replies) (h3 : v.nextId = u.nextId) (h : Inv u) : Inv v := by
  unfold Inv at *
  rw [h1, h2, h3]
  exact h

theorem cacheTile_mRequest (s : LayerState) (image : Bytes) (pos : TilePos)
    (url : String) : (cacheTile s image pos url).mRequest = s.mRequest := by
  unfold cacheTile
  by_cases h : s.dbOk <;> simp [h]

theorem cacheTile_replies (s : LayerState) (image : Bytes) (pos : TilePos)
    (url : String) : (cacheTile s image pos url).replies = s.replies := by
  unfold cacheTile
  by_cases h : s.dbOk <;> simp [h]

theorem cacheTile_nextId (s : LayerState) (image : Bytes) (pos : TilePos)
    (url : String) : (cacheTile s image pos url).nextId = s.nextId := by
  unfold cacheTile
  by_cases h : s.dbOk <;> simp [h]

theorem inv_removeReply_marked (s : LayerState) (i : Nat) (pos : TilePos)
    (evs : List Event) (hInv : Inv s)
    (hkey : ∀ e ∈ s.mRequest, e.2 = i → e.1 = pos) :
    Inv (removeReply
      { s with replies := markDone s.replies i, events := evs } pos) := by
  obtain ⟨hkeys, hids, hbound, hB⟩ := hInv
  have hmr : ({ s with replies := markDone s.replies i, events := evs }
      : LayerState).mRequest = s.mRequest := rfl
  cases hl : mapLookup s.mRequest pos with
  | none =>
    rw [removeReply_of_lookup_none _ pos (hmr ▸ hl)]
    refine ⟨hkeys, ?_, ?_, ?_⟩
    · show ((markDone s.replies i).map ReplyRec.id).Nodup
      rw [markDone_map_id]
      exact hids
    · intro r hr
      exact markDone_bound s.replies i s.nextId hbound r hr
    · intro e he
      obtain ⟨r, hr, hrid, hrpos, hrlive⟩ := hB e he
      have hne : r.id ≠ i := by
        intro hri2
        have := hkey e he (by rw [← hrid, hri2])
        exact (mapLookup_none_iff s.mRequest pos).mp hl e he this
      exact ⟨r, mem_markDone_of_ne s.replies i r hr hne, hrid, hrpos, hrlive⟩
  | some j =>
    rw [removeReply_of_lookup_some _ pos j (hmr ▸ hl)]
    have hmemj := mapLookup_mem s.mRequest pos j hl
    obtain ⟨rj, hrj, hrjid, hrjpos, hrjlive⟩ := hB (pos, j) hmemj
    refine ⟨?_, ?_, ?_, ?_⟩
    · exact keys_nodup_filter s.mRequest _ hkeys
    · show ((markDone (markDone s.replies i) j).map ReplyRec.id).Nodup
      rw [markDone_map_id, markDone_map_id]
      exact hids
    · intro r hr
      exact markDone_bound _ j s.nextId
        (markDone_bound s.replies i s.nextId hbound) r hr
    · intro e he
      obtain ⟨hem, hene⟩ := mem_mapRemove s.mRequest pos e he
      obtain ⟨r, hr, hrid, hrpos, hrlive⟩ := hB e hem
      have hnei : r.id ≠ i := by
        intro hri2
        exact hene (hkey e hem (by rw [← hrid, hri2]))
      have hnej : r.id ≠ j := by
        intro hrj2
        have hr_eq : r = rj :=
          List.inj_on_of_nodup_map hids hr hrj (by rw [hrj2, hrjid])
        apply hene
        rw [← hrpos, hr_eq, hrjpos]
      exact ⟨r,
        mem_markDone_of_ne _ j r (mem_markDone_of_ne s.replies i r hr hnei) hnej,
        hrid, hrpos, hrlive⟩

theorem inv_step (resolver : TilePos → String) (s s2 : LayerState)
    (hInv : Inv s) (hstep : Step resolver s s2) : Inv s2 := by
  cases hstep with
  | request pos => exact inv_request resolver s pos hInv
  | cancel pos => exact inv_removeReply s pos hInv
  | finish r err body hmem hlive =>
    have hkey : ∀ e ∈ s.mRequest, e.2 = r.id → e.1 = r.pos := by
      intro e he h2
      obtain ⟨re, hre, hreid, hrepos, hrelive⟩ := hInv.2.2.2 e he
      have hr_eq : re = r :=
        List.inj_on_of_nodup_map hInv.2.1 hre hmem (by rw [hreid, h2])
      rw [← hrepos, hr_eq]
    by_cases herr : err = NetError.noError
    · rw [herr]
      have hs1 : Inv (removeReply (consumeReply s r.id) r.pos) :=
        inv_removeReply_marked s r.id r.pos s.events hInv hkey
      have hshape := onReplyFinished_noError (consumeReply s r.id) r.url body r.pos
      cases hl : mapLookup (consumeReply s r.id).mRequest r.pos with
      | none =>
        unfold onReplyFinished
        simp only [ne_eq, not_true_eq_false, if_false, reduceIte]
        rw [removeReply_of_lookup_none _ r.pos hl]
        refine inv_of_fields (consumeReply s r.id) _
          (cacheTile_mRequest _ _ _ _) (cacheTile_replies _ _ _ _)
          (cacheTile_nextId _ _ _ _) ?_
        rw [removeReply_of_lookup_none _ r.pos hl] at hs1
        exact hs1
      | some j =>
        rw [hshape j hl]
        refine inv_of_fields _ _
          (cacheTile_mRequest _ _ _ _) (cacheTile_replies _ _ _ _)
          (cacheTile_nextId _ _ _ _) ?_
        rw [removeReply_of_lookup_some _ r.pos j hl] at hs1
        exact hs1
    · rw [onReplyFinished_error _ r.url err body r.pos herr]
      by_cases hc : err ≠ NetError.operationCanceled
      · rw [if_pos hc]
        exact inv_removeReply_marked s r.id r.pos
          (s.events ++ [Event.logCritical]) hInv hkey
      · rw [if_neg hc]
        exact inv_removeReply_marked s r.id r.pos s.events hInv hkey

theorem inv_reachable (resolver : TilePos → String) (s0 s : LayerState)
    (h0 : s0.mRequest = []) (h1 : s0.replies = [])
    (hr : Reachable resolver s0 s) : Inv s := by
  unfold Reachable at hr
  induction hr with
  | refl =>
    refine ⟨?_, ?_, ?_, ?_⟩ <;> simp [h0, h1]
  | tail hab hbc ih => exact inv_step resolver _ _ ih hbc

/-- C2: in every state reachable by the event loop from a freshly-constructed
coordinator, the in-flight table has at most one entry per tile coordinate
(its keys are pairwise distinct), and every coordinate without a live issued
fetch is absent from the table: entries exist only while their fetch is in
flight, being inserted when a fetch is issued on a cache miss and removed when
a fetch for the coordinate completes, fails or is cancelled. -/
theorem c2_inflight_table_invariant (resolver : TilePos → String)
    (s0 s : LayerState) (h0 : s0.mRequest = []) (h1 : s0.replies = [])
    (hr : Reachable resolver s0 s) :
    (s.mRequest.map Prod.fst).Nodup ∧
    (∀ pos : TilePos, ¬ Fetching s pos → mapLookup s.mRequest pos = none) := by
  have hInv := inv_reachable resolver s0 s h0 h1 hr
  refine ⟨hInv.1, ?_⟩
  intro pos hnf
  cases hl : mapLookup s.mRequest pos with
  | none => rfl
  | some i =>
    have hmem := mapLookup_mem s.mRequest pos i hl
    obtain ⟨r, hr2, hrid, hrpos, hrlive⟩ := hInv.2.2.2 (pos, i) hmem
    exact absurd ⟨r, hr2, hrpos, hrlive⟩ hnf

/-! ### Concrete witnesses -/

theorem c1_witness :
    mapLookup ((request (fun _ => "http://a/b")
      { initState true with
        mRequest := [((⟨0, 0, 0⟩ : TilePos), 0)], nextId := 1 }
      ⟨0, 0, 0⟩).mRequest) ⟨0, 0, 0⟩ = some 1 := by
  have h := c1_no_dedup_on_second_request (fun _ => "http://a/b")
    { initState true with
      mRequest := [((⟨0, 0, 0⟩ : TilePos), 0)], nextId := 1 }
    ⟨0, 0, 0⟩ 0 (by decide) (by decide)
  exact h.2.2.1

theorem c2_witness :
    mapLookup (initState true).mRequest ⟨0, 0, 0⟩ = none := by
  have h := c2_inflight_table_invariant (fun _ => "http://a/b")
    (initState true) (initState true) rfl rfl Relation.ReflTransGen.refl
  refine h.2 ⟨0, 0, 0⟩ ?_
  rintro ⟨r, hr, -⟩
  simp [initState] at hr

theorem c3_witness :
    deliveredTiles (onReplyFinished
        (consumeReply (request (fun _ => "http://a/b") (initState true) ⟨0, 0, 0⟩)
          (initState true).nextId)
        ((fun (_ : TilePos) => "http://a/b") ⟨0, 0, 0⟩) NetError.noError [1, 2]
        ⟨0, 0, 0⟩).events ⟨0, 0, 0⟩
      = [⟨TilePos.toGeoRect ⟨0, 0, 0⟩, [1, 2], drawDebugString "http://a/b" ⟨0, 0, 0⟩⟩] := by
  have h := c3_exactly_once_delivery (fun _ => "http://a/b") (initState true)
    ⟨0, 0, 0⟩ [1, 2] NetError.operationCanceled (by decide)
  simpa [initState, deliveredTiles] using h.1

theorem c4_witness :
    (request (fun _ => "http://tile.example.com/3/1/2.png")
      { initState true with
        cache := [(⟨0, 3, 1, 2, "tile.example.com", [9]⟩ : CacheRow)] }
      ⟨3, 1, 2⟩).mRequest = [] ∧
    (request (fun _ => "http://tile.example.com/3/1/2.png")
      { initState true with
        cache := [(⟨0, 3, 1, 2, "tile.example.com", [9]⟩ : CacheRow)] }
      ⟨3, 1, 2⟩).events
      = [Event.onTile ⟨3, 1, 2⟩ ⟨TilePos.toGeoRect ⟨3, 1, 2⟩, [9],
          drawDebugString ("http://tile.example.com/3/1/2.png" ++ " Cached Tile")
            ⟨3, 1, 2⟩⟩] := by
  have h := c4_cache_hit_no_fetch (fun _ => "http://tile.example.com/3/1/2.png")
    { initState true with
      cache := [(⟨0, 3, 1, 2, "tile.example.com", [9]⟩ : CacheRow)] }
    ⟨3, 1, 2⟩ ⟨0, 3, 1, 2, "tile.example.com", [9]⟩ rfl (by decide) (by decide)
    (by decide) (by decide)
  exact ⟨h.2.1, by simpa [initState] using h.2.2.2.2.2⟩

theorem c5_witness :
    (onReplyFinished
      { initState true with mRequest := [((⟨3, 1, 2⟩ : TilePos), 4)] }
      "http://tile.example.com/3/1/2.png" NetError.noError [7] ⟨3, 1, 2⟩).events
      = [Event.removeEntry ⟨3, 1, 2⟩, Event.abortReply 4,
         Event.onTile ⟨3, 1, 2⟩ ⟨TilePos.toGeoRect ⟨3, 1, 2⟩, [7],
           drawDebugString "http://tile.example.com/3/1/2.png" ⟨3, 1, 2⟩⟩,
         Event.cacheWrite 3 1 2
           (providerOf "http://tile.example.com/3/1/2.png") [7]] := by
  have h := c5_success_ordering
    { initState true with mRequest := [((⟨3, 1, 2⟩ : TilePos), 4)] }
    "http://tile.example.com/3/1/2.png" [7] ⟨3, 1, 2⟩ 4 (by decide)
  simpa [initState] using h.1

theorem c6_witness :
    (onReplyFinished (initState true) "http://a/b" (NetError.otherError 404) []
      ⟨0, 0, 0⟩).events = [Event.logCritical] := by
  have h := c6_error_completion (initState true) "http://a/b"
    (NetError.otherError 404) [] ⟨0, 0, 0⟩ (by decide)
  simpa [initState, mapLookup] using h.2.2

theorem c7_witness :
    cancel (initState true) ⟨0, 0, 0⟩ = initState true ∧
    (cancel
      { initState true with mRequest := [((⟨0, 0, 0⟩ : TilePos), 5)] }
      ⟨0, 0, 0⟩).events
      = [Event.removeEntry ⟨0, 0, 0⟩, Event.abortReply 5] := by
  constructor
  · exact (c7_cancel_abort_or_noop (initState true) ⟨0, 0, 0⟩).1 (by decide)
  · have h := (c7_cancel_abort_or_noop
      { initState true with mRequest := [((⟨0, 0, 0⟩ : TilePos), 5)] }
      ⟨0, 0, 0⟩).2 5 (by decide)
    simpa [initState] using h.2.2.2.2.2

theorem c8_witness :
    findCachedTile
      (cacheTile (initState true) [5] ⟨3, 1, 2⟩ "http://tile.example.com/3/1/2.png")
      ⟨3, 1, 2⟩ "http://tile.example.com/3/1/2.png" = [5] :=
  (c8_provider_key_agreement (initState true) [5] ⟨3, 1, 2⟩
    "http://tile.example.com/3/1/2.png" rfl (by decide)).2

theorem c9_witness :
    ((cacheTile (cacheTile (initState true) [1] ⟨3, 1, 2⟩
        "http://tile.example.com/3/1/2.png") [2] ⟨3, 1, 2⟩
        "http://tile.example.com/3/1/2.png").cache.filter
      (fun r => rowMatches r ⟨3, 1, 2⟩
        (providerOf "http://tile.example.com/3/1/2.png"))).map CacheRow.data
      = [[2]] :=
  c9_cache_store_idempotent (initState true) [1] [2] ⟨3, 1, 2⟩
    "http://tile.example.com/3/1/2.png" rfl

theorem c10_witness :
    mapLookup ((request (fun _ => "http://tile.example.com/3/1/2.png")
      { initState true with
        cache := [(⟨0, 3, 1, 2, "tile.example.com", []⟩ : CacheRow)] }
      ⟨3, 1, 2⟩).mRequest) ⟨3, 1, 2⟩ = some 0 := by
  have h := c10_empty_entry_is_miss (fun _ => "http://tile.example.com/3/1/2.png")
    { initState true with
      cache := [(⟨0, 3, 1, 2, "tile.example.com", []⟩ : CacheRow)] }
    ⟨3, 1, 2⟩ ⟨0, 3, 1, 2, "tile.example.com", []⟩ rfl (by decide) (by decide)
    (by decide) (by decide)
  exact h.2.2

end QGVTilesOnline
